import Mathlib

/-!
Verification development for the `pubsub` and `sentinel` packages of this
repository.  Byte strings are modelled as `List Nat` (one `Nat` per byte);
Go maps from string to string are modelled as association lists with the
Go lookup semantics (missing key yields the empty string).
-/

namespace RadixV2

/-! ## Frame classifier (`pubsub`: `Message`, `Message.fromArr`, `Message.Unmarshal`) -/

/-- `bytes.ToUpper` restricted to a single ASCII byte. -/
def toUpperByte (b : Nat) : Nat :=
  if 97 ≤ b ∧ b ≤ 122 then b - 32 else b

/-- `bytes.ToUpper` on a byte string (ASCII fragment, which covers the
frame tags compared against `"MESSAGE"` / `"PMESSAGE"`). -/
def bytesToUpper (bs : List Nat) : List Nat :=
  bs.map toUpperByte

/-- The byte string `"MESSAGE"`. -/
def strMESSAGE : List Nat := [77, 69, 83, 83, 65, 71, 69]

/-- The byte string `"PMESSAGE"`. -/
def strPMESSAGE : List Nat := 80 :: strMESSAGE

/-- `pubsub.Message`: a message published to a subscribed channel.
The `Msg` field is named `Message` in the source (Go allows a field named
after its struct; Lean does not). -/
structure Message where
  Pattern : List Nat
  Channel : List Nat
  Msg : List Nat
deriving DecidableEq, Repr

/-- The Go zero value of `Message` (fresh `var mm maybeMessage` each
read-loop iteration). -/
def Message.zero : Message := { Pattern := [], Channel := [], Msg := [] }

/-- `Message.fromArr`: pops elements of `bb` in order — pattern (only if
`isPat`), channel, payload — into the message.  `none` models the Go
slice-index panic when `bb` is shorter than the pops require (the source
comment says "Assumes bb is correct size").  Returns the updated message
and the unconsumed remainder of `bb`. -/
def Message.fromArr (m : Message) (bb : List (List Nat)) (isPat : Bool) :
    Option (Message × List (List Nat)) :=
  if isPat then
    match bb with
    | p :: c :: pay :: rest => some ({ m with Pattern := p, Channel := c, Msg := pay }, rest)
    | _ => none
  else
    match bb with
    | c :: pay :: rest => some ({ m with Channel := c, Msg := pay }, rest)
    | _ => none

/-- Result of `Message.Unmarshal` after the inner decode succeeded and
produced the raw array `bb`: either a populated message, a
`radix.UnmarshalErr` carrying the given text, or a runtime panic. -/
inductive UnmarshalResult where
  | ok (m : Message)
  | unmarshalErr (msg : String)
  | panicked
deriving DecidableEq, Repr

/-- `Message.Unmarshal`, given the decoded array `bb` of byte strings
(the `fn(&bb)` call succeeded).  Mirrors the source exactly, including
the `if isPat && len(bb) < 4 { ... } else if !bytes.Equal(typ,
[]byte("MESSAGE")) { ... }` chain. -/
def Message.Unmarshal (m0 : Message) (bb : List (List Nat)) : UnmarshalResult :=
  if bb.length < 3 then UnmarshalResult.unmarshalErr "message has too few elements"
  else
    let typ := bytesToUpper (bb.headD [])
    let isPat : Bool := decide (typ = strPMESSAGE)
    if isPat ∧ bb.length < 4 then
      UnmarshalResult.unmarshalErr "message has too few elements"
    else if ¬ (typ = strMESSAGE) then
      UnmarshalResult.unmarshalErr "not MESSAGE or PMESSAGE"
    else
      match Message.fromArr m0 bb.tail isPat with
      | some (m, _) => UnmarshalResult.ok m
      | none => UnmarshalResult.panicked

/-- The byte string `"pmessage"` (lower case, upper-cased by the classifier). -/
def strPmessageLower : List Nat := [112, 109, 101, 115, 115, 97, 103, 101]

/-- The byte string `"message"` (lower case). -/
def strMessageLower : List Nat := [109, 101, 115, 115, 97, 103, 101]

/-- C1: the code rejects every pattern push.  For the well-formed 4-element
pattern-push frame `["pmessage", "p", "c", "x"]` the classifier returns the
`UnmarshalErr` "not MESSAGE or PMESSAGE" instead of extracting the fields:
after `isPat && len(bb) < 4` is found false, the `else if` compares the
(upper-cased) tag `PMESSAGE` against `MESSAGE` without excluding the
pattern case, so it always fires.  By contrast a well-formed 3-element
plain push `["message", "c", "x"]` is extracted correctly, consuming all
elements — showing the pattern arm of `fromArr` is the intended path and
the `else if` guard is a slip. -/
theorem claim1_pmessage_rejected :
    Message.Unmarshal Message.zero [strPmessageLower, [112], [99], [120]] =
      UnmarshalResult.unmarshalErr "not MESSAGE or PMESSAGE" ∧
    Message.Unmarshal Message.zero [strMessageLower, [99], [120]] =
      UnmarshalResult.ok { Pattern := [], Channel := [99], Msg := [120] } ∧
    Message.fromArr Message.zero [[99], [120]] false =
      some ({ Pattern := [], Channel := [99], Msg := [120] }, []) := by
  decide

/-! ## Read loop (`pubsub`: `maybeMessage`, `SubConn.readSpin`, `Close`, `Err`)

The read loop performs one `sc.c.Decode(&mm)` per iteration.  A decode
either fails with a connection-level error (carrying the
`net.Error`-and-`Timeout()` classification) or yields a raw frame, which
`maybeMessage.Unmarshal` feeds through `Message.Unmarshal`. -/

/-- A connection-level error as the read loop sees it: `timeout` is true
exactly when the Go error satisfies `err.(net.Error)` with `Timeout()`. -/
structure WireErr where
  timeout : Bool
  code : Nat
deriving DecidableEq, Repr

/-- Outcome of one `Decode` call at the wire level: a connection-level
error, or a decoded array of byte strings. -/
inductive DecodeResult where
  | err (e : WireErr)
  | frame (bb : List (List Nat))
deriving DecidableEq, Repr

/-- Result of `maybeMessage.Unmarshal`, i.e. the state of `mm` plus the
error the method returned: `ok` is `mm.ok`, `msg` is `mm.Message`,
`err` is the returned error (`none` for a nil return). -/
structure MaybeResult where
  ok : Bool
  msg : Message
  err : Option WireErr
  panicked : Bool
deriving DecidableEq, Repr

/-- `maybeMessage.Unmarshal`: runs the inner decode; a `radix.UnmarshalErr`
(wrong tag or wrong element count) is swallowed — the method returns nil
with `mm.ok` left at its zero value `false`; otherwise `mm.ok = (err ==
nil)` and the error is passed through. -/
def maybeMessage.Unmarshal (d : DecodeResult) : MaybeResult :=
  match d with
  | DecodeResult.err e => { ok := false, msg := Message.zero, err := some e, panicked := false }
  | DecodeResult.frame bb =>
    match Message.Unmarshal Message.zero bb with
    | UnmarshalResult.ok m => { ok := true, msg := m, err := none, panicked := false }
    | UnmarshalResult.unmarshalErr _ =>
        { ok := false, msg := Message.zero, err := none, panicked := false }
    | UnmarshalResult.panicked =>
        { ok := false, msg := Message.zero, err := none, panicked := true }

/-- State of one `SubConn` as the read loop and its callers observe it:
`lastErr` is `sc.lastErr`; `chClosed` / `closeChClosed` / `connClosed`
record which of the loop's deferred closes have run; `pending` is the
content of the capacity-1 `cmdDoneCh` (the id of the waiting completion
token, if any); `closeSignal` records a `Close` caller waiting to
rendezvous on the unbuffered `closeCh`. -/
structure SpinState where
  lastErr : Option WireErr
  chClosed : Bool
  closeChClosed : Bool
  connClosed : Bool
  pending : Option Nat
  closeSignal : Bool
deriving DecidableEq, Repr

/-- The three deferred closes that run when `readSpin` returns:
`close(ch)`, `close(sc.closeCh)`, `sc.c.Close()`. -/
def closeAll (s : SpinState) : SpinState :=
  { s with chClosed := true, closeChClosed := true, connClosed := true }

/-- Observable outcome of one `readSpin` iteration. -/
inductive StepResult where
  | terminated (s : SpinState)
  | continued (s : SpinState)
  | emitMsg (m : Message) (s : SpinState)
  | ackSignaled (t : Nat) (s : SpinState)
  | blockedOnCmdDone (s : SpinState)
  | crashed
deriving DecidableEq, Repr

/-- One iteration of `SubConn.readSpin`: poll the close channel; decode;
on a timeout-class error continue unchanged; on any other error record it
in `lastErr` and terminate (running the deferred closes); on a non-push
frame take a completion token from `cmdDoneCh` and signal it, blocking if
the channel is empty; on a push forward the message to `Ch`. -/
def readSpinStep (s : SpinState) (d : DecodeResult) : StepResult :=
  if s.closeSignal then StepResult.terminated (closeAll s)
  else
    let mm := maybeMessage.Unmarshal d
    if mm.panicked then StepResult.crashed
    else
      match mm.err with
      | some e =>
        if e.timeout then StepResult.continued s
        else StepResult.terminated (closeAll { s with lastErr := some e })
      | none =>
        if mm.ok then StepResult.emitMsg mm.msg s
        else
          match s.pending with
          | some t => StepResult.ackSignaled t { s with pending := none }
          | none => StepResult.blockedOnCmdDone s

/-- `SubConn.Err`: returns `sc.lastErr`. -/
def SubConn.Err (s : SpinState) : Option WireErr :=
  s.lastErr

/-- What a call to `SubConn.Close` does from the caller's side. -/
inductive CloseOutcome where
  | returned
  | panicked
deriving DecidableEq, Repr

/-- `SubConn.Close`: executes `sc.closeCh <- true`.  While the read loop
is alive the send rendezvouses with the loop's select poll and the call
returns (the teardown itself is performed by the loop's defers, not by
`Close`); once the loop has terminated, `closeCh` has been closed by the
deferred `close(sc.closeCh)` and the send panics. -/
def SubConn.Close (s : SpinState) : CloseOutcome × SpinState :=
  if s.closeChClosed then (CloseOutcome.panicked, s)
  else (CloseOutcome.returned, { s with closeSignal := true })

/-- The state of a freshly constructed `SubConn` (`pubsub.New`). -/
def spinInit : SpinState :=
  { lastErr := none, chClosed := false, closeChClosed := false, connClosed := false,
    pending := none, closeSignal := false }

/-! ## Claims C2, C3, C5 -/

/-- A too-short plain-push frame: `["MESSAGE", "c"]`. -/
def shortPushFrame : List (List Nat) := [strMESSAGE, [99]]

/-- C2 counterexample: the push-tagged two-element frame `["MESSAGE","c"]`
does make `Message.Unmarshal` fail with the framing `UnmarshalErr`, but
the read loop does not terminate on it and records no error: `maybeMessage`
swallows the `UnmarshalErr`, so the loop classifies the frame as an
acknowledgment (consuming the pending completion token) and continues with
`lastErr` still unset — contradicting the claim that such a frame
terminates the multiplexer, is recorded as the last error, and is never
classified as an acknowledgment. -/
theorem claim2_counterexample :
    Message.Unmarshal Message.zero shortPushFrame =
      UnmarshalResult.unmarshalErr "message has too few elements" ∧
    readSpinStep { spinInit with pending := some 0 } (DecodeResult.frame shortPushFrame) =
      StepResult.ackSignaled 0 spinInit ∧
    SubConn.Err spinInit = none := by
  decide

/-- The frame's first element, upper-cased, is a push tag. -/
def pushTagged (bb : List (List Nat)) : Prop :=
  bytesToUpper (bb.headD []) = strMESSAGE ∨ bytesToUpper (bb.headD []) = strPMESSAGE

/-- The frame's element count is below the minimum for its (upper-cased)
tag: 4 for a pattern push, 3 otherwise. -/
def belowMinCount (bb : List (List Nat)) : Prop :=
  if bytesToUpper (bb.headD []) = strPMESSAGE then bb.length < 4 else bb.length < 3

instance (bb : List (List Nat)) : Decidable (pushTagged bb) := by
  unfold pushTagged
  infer_instance

instance (bb : List (List Nat)) : Decidable (belowMinCount bb) := by
  unfold belowMinCount
  infer_instance

/-- C2 (amended): for every frame tagged as a push type whose element
count is below the minimum, `Message.Unmarshal` fails with the
protocol-framing `UnmarshalErr` "message has too few elements" and
populates no field; however `maybeMessage.Unmarshal` swallows that error
(nil return, `ok = false`), so the read loop classifies the frame as an
acknowledgment — it consumes the pending completion token when one is
present and continues with `lastErr` unchanged, rather than terminating. -/
theorem claim2_short_push_treated_as_ack (bb : List (List Nat))
    (h1 : pushTagged bb) (h2 : belowMinCount bb) :
    Message.Unmarshal Message.zero bb =
      UnmarshalResult.unmarshalErr "message has too few elements" ∧
    maybeMessage.Unmarshal (DecodeResult.frame bb) =
      { ok := false, msg := Message.zero, err := none, panicked := false } ∧
    (∀ s t, s.closeSignal = false → s.pending = some t →
      readSpinStep s (DecodeResult.frame bb) =
        StepResult.ackSignaled t { s with pending := none }) := by
  have hmain : Message.Unmarshal Message.zero bb =
      UnmarshalResult.unmarshalErr "message has too few elements" := by
    unfold Message.Unmarshal
    by_cases h3 : bb.length < 3
    · simp [h3]
    · rcases h1 with hm | hp
      · exfalso
        have hne : bytesToUpper (bb.headD []) ≠ strPMESSAGE := by
          rw [hm]; decide
        unfold belowMinCount at h2
        rw [if_neg hne] at h2
        exact h3 h2
      · have h4 : bb.length < 4 := by
          unfold belowMinCount at h2
          rwa [if_pos hp] at h2
        have hp2 : bytesToUpper (bb.head?.getD []) = strPMESSAGE := by
          rwa [List.headD_eq_head?] at hp
        simp [h3, hp2, h4]
  refine ⟨hmain, ?_, ?_⟩
  · simp [maybeMessage.Unmarshal, hmain]
  · intro s t hc hp
    simp [readSpinStep, maybeMessage.Unmarshal, hmain, hc, hp]

/-- C2 witness: the amended claim at the concrete frame `["MESSAGE","c"]`
held by a state with completion token `5` pending. -/
theorem claim2_witness :
    readSpinStep { spinInit with pending := some 5 } (DecodeResult.frame shortPushFrame) =
      StepResult.ackSignaled 5 spinInit :=
  (claim2_short_push_treated_as_ack shortPushFrame (Or.inl (by decide))
    (by decide)).2.2 { spinInit with pending := some 5 } 5 rfl rfl

/-- C3 counterexample: `Close` is not idempotent.  The first `Close` on a
fresh `SubConn` returns after rendezvousing with the read loop; the loop
then observes the signal, terminates and (by its deferred
`close(sc.closeCh)`) closes the close channel; a second `Close` call then
sends on a closed channel and panics.  The same panic occurs for any
`Close` issued after the read loop has already terminated. -/
theorem claim3_counterexample :
    (SubConn.Close spinInit).fst = CloseOutcome.returned ∧
    readSpinStep (SubConn.Close spinInit).snd (DecodeResult.err { timeout := true, code := 0 }) =
      StepResult.terminated (closeAll { spinInit with closeSignal := true }) ∧
    (SubConn.Close (closeAll { spinInit with closeSignal := true })).fst =
      CloseOutcome.panicked := by
  decide

/-- C3 (amended): a `Close` call is safe only while the read loop has not
yet terminated: in that case it delivers the stop signal and returns
without itself performing any teardown (queue, close channel and
connection flags are untouched by `Close`; the read loop's defers do the
closing).  Once the read loop has terminated — after a previous `Close`
or a fatal decode error — the close channel is closed and any further
`Close` call panics, so `Close` is neither idempotent nor safe at
arbitrary points in the lifetime. -/
theorem claim3_close_not_idempotent (s : SpinState) (h : s.closeChClosed = false) :
    SubConn.Close s = (CloseOutcome.returned, { s with closeSignal := true }) ∧
    ((SubConn.Close s).snd.chClosed = s.chClosed ∧
      (SubConn.Close s).snd.connClosed = s.connClosed ∧
      (SubConn.Close s).snd.closeChClosed = s.closeChClosed) ∧
    (∀ s2 : SpinState, s2.closeChClosed = true →
      (SubConn.Close s2).fst = CloseOutcome.panicked) := by
  refine ⟨?_, ?_, ?_⟩
  · simp [SubConn.Close, h]
  · simp [SubConn.Close, h]
  · intro s2 h2
    simp [SubConn.Close, h2]

/-- C3 witness: the amended claim at the fresh `SubConn` state. -/
theorem claim3_witness :
    SubConn.Close spinInit = (CloseOutcome.returned, { spinInit with closeSignal := true }) :=
  (claim3_close_not_idempotent spinInit rfl).1

/-- C5: if the read loop's decode fails with a non-timeout error `e`, the
iteration records exactly `e` in `lastErr`, terminates, and runs the
deferred closes — so `Ch` is closed and `Err` returns exactly `e`;
a timeout-class decode error leaves the state unchanged and the loop
continues. -/
theorem claim5_decode_error_recorded (s : SpinState) (e : WireErr)
    (h : s.closeSignal = false) :
    (e.timeout = false →
      readSpinStep s (DecodeResult.err e) =
        StepResult.terminated (closeAll { s with lastErr := some e }) ∧
      (closeAll { s with lastErr := some e }).chClosed = true ∧
      SubConn.Err (closeAll { s with lastErr := some e }) = some e) ∧
    (e.timeout = true → readSpinStep s (DecodeResult.err e) = StepResult.continued s) := by
  constructor
  · intro ht
    refine ⟨?_, rfl, rfl⟩
    simp [readSpinStep, maybeMessage.Unmarshal, h, ht]
  · intro ht
    simp [readSpinStep, maybeMessage.Unmarshal, h, ht]

/-- C5 witness: the fatal branch at the fresh state and the concrete
non-timeout error `code 5`. -/
theorem claim5_witness :
    readSpinStep spinInit (DecodeResult.err { timeout := false, code := 5 }) =
      StepResult.terminated (closeAll { spinInit with lastErr := some { timeout := false, code := 5 } }) :=
  ((claim5_decode_error_recorded spinInit { timeout := false, code := 5 } rfl).1 rfl).1

/-! ## Command serialization (`pubsub`: `SubConn.doCmd` and the ack branch
of `SubConn.readSpin`)

An interleaving model of the capacity-1 `cmdDoneCh` protocol.  Each
command call (`doCmd`) runs, in program order: make a fresh completion
token, send it into `cmdDoneCh` (blocking while the channel is full),
encode/write the command on the connection, then receive on the token.
The read loop, on decoding a non-push frame, receives the oldest token
from `cmdDoneCh` and then sends `true` on it.  Tokens are identified by
`Nat`s; `write` carries the result of `sc.c.Encode` (`some code` for a
failed write), which `doCmd` discards. -/

/-- An observable event of the command/acknowledgment protocol. -/
inductive CmdEvent where
  | enqueue (i : Nat)
  | write (i : Nat) (encodeErr : Option Nat)
  | consume (i : Nat)
  | signal (i : Nat)
  | pushMsg
deriving DecidableEq, Repr

/-- Progress of one `doCmd` call through its program order. -/
inductive CmdStage where
  | notStarted
  | enqueued
  | written
  | done
deriving DecidableEq, Repr

/-- What the read loop is doing with respect to acknowledgments: `free`,
or holding a token it has taken off `cmdDoneCh` and is about to signal. -/
inductive LoopPhase where
  | free
  | signaling (i : Nat)
deriving DecidableEq, Repr

/-- Global state of the protocol: the content of the capacity-1
`cmdDoneCh`, the stage of every command call, and the loop phase. -/
structure SysState where
  queue : Option Nat
  tasks : Nat → CmdStage
  loop : LoopPhase

/-- One labelled transition.  `enqueue` requires channel capacity
(`queue = none`) — this is the blocking send `sc.cmdDoneCh <- doneCh`;
`write` requires the task to have enqueued — `sc.c.Encode` runs after the
send, and its result is discarded; `consume` is the read loop's
`<-sc.cmdDoneCh` on a non-push frame, enabled only when a token is
present; `signal` is the loop's send on the consumed token, received by
the task blocked in `<-doneCh`; `pushMsg` is the loop forwarding a push
(it leaves the protocol state unchanged). -/
def sysStep (s : SysState) (e : CmdEvent) : Option SysState :=
  match e with
  | CmdEvent.enqueue i =>
    if s.queue = none ∧ s.tasks i = CmdStage.notStarted then
      some { s with queue := some i,
                    tasks := fun j => if j = i then CmdStage.enqueued else s.tasks j }
    else none
  | CmdEvent.write i _ =>
    if s.tasks i = CmdStage.enqueued then
      some { s with tasks := fun j => if j = i then CmdStage.written else s.tasks j }
    else none
  | CmdEvent.consume i =>
    if s.queue = some i ∧ s.loop = LoopPhase.free then
      some { s with queue := none, loop := LoopPhase.signaling i }
    else none
  | CmdEvent.signal i =>
    if s.loop = LoopPhase.signaling i ∧ s.tasks i = CmdStage.written then
      some { s with loop := LoopPhase.free,
                    tasks := fun j => if j = i then CmdStage.done else s.tasks j }
    else none
  | CmdEvent.pushMsg =>
    if s.loop = LoopPhase.free then some s else none

/-- Run a sequence of events from a state; `none` if some event was not
enabled at its point. -/
def sysRun : SysState → List CmdEvent → Option SysState
  | s, [] => some s
  | s, e :: tr => (sysStep s e).bind fun s1 => sysRun s1 tr

/-- The initial protocol state of a fresh `SubConn`: empty `cmdDoneCh`,
no command call started, read loop free. -/
def sysInit : SysState :=
  { queue := none, tasks := fun _ => CmdStage.notStarted, loop := LoopPhase.free }

/-- A trace is valid when every event is enabled where it occurs,
starting from the fresh state. -/
def ValidTrace (tr : List CmdEvent) : Prop :=
  (sysRun sysInit tr).isSome = true

instance (tr : List CmdEvent) : Decidable (ValidTrace tr) := by
  unfold ValidTrace
  infer_instance

lemma sysRun_cons (s : SysState) (e : CmdEvent) (tr : List CmdEvent) :
    sysRun s (e :: tr) = (sysStep s e).bind fun s1 => sysRun s1 tr := rfl

lemma sysRun_append (l1 l2 : List CmdEvent) :
    ∀ s, sysRun s (l1 ++ l2) = (sysRun s l1).bind fun m => sysRun m l2 := by
  induction l1 with
  | nil => intro s; rfl
  | cons e t ih =>
    intro s
    rw [List.cons_append, sysRun_cons, sysRun_cons]
    cases sysStep s e with
    | none => rfl
    | some s1 => exact ih s1

lemma isSome_bind {α β : Type} {x : Option α} {f : α → Option β}
    (h : (x.bind f).isSome = true) : ∃ v, x = some v ∧ (f v).isSome = true := by
  cases x with
  | none => simp at h
  | some v => exact ⟨v, rfl, h⟩

lemma sysStep_enqueue_eq {s s1 : SysState} {i : Nat}
    (h : sysStep s (CmdEvent.enqueue i) = some s1) :
    s.queue = none ∧ s.tasks i = CmdStage.notStarted ∧
      s1 = { s with queue := some i,
                    tasks := fun j => if j = i then CmdStage.enqueued else s.tasks j } := by
  simp only [sysStep] at h
  split at h
  · rename_i hc
    exact ⟨hc.1, hc.2, by injection h with h2; rw [h2]⟩
  · exact Option.noConfusion h

lemma sysStep_write_eq {s s1 : SysState} {i : Nat} {r : Option Nat}
    (h : sysStep s (CmdEvent.write i r) = some s1) :
    s.tasks i = CmdStage.enqueued ∧
      s1 = { s with tasks := fun j => if j = i then CmdStage.written else s.tasks j } := by
  simp only [sysStep] at h
  split at h
  · rename_i hc
    exact ⟨hc, by injection h with h2; rw [h2]⟩
  · exact Option.noConfusion h

lemma sysStep_consume_eq {s s1 : SysState} {i : Nat}
    (h : sysStep s (CmdEvent.consume i) = some s1) :
    s.queue = some i ∧ s.loop = LoopPhase.free ∧
      s1 = { s with queue := none, loop := LoopPhase.signaling i } := by
  simp only [sysStep] at h
  split at h
  · rename_i hc
    exact ⟨hc.1, hc.2, by injection h with h2; rw [h2]⟩
  · exact Option.noConfusion h

lemma sysStep_signal_eq {s s1 : SysState} {i : Nat}
    (h : sysStep s (CmdEvent.signal i) = some s1) :
    s.loop = LoopPhase.signaling i ∧ s.tasks i = CmdStage.written ∧
      s1 = { s with loop := LoopPhase.free,
                    tasks := fun j => if j = i then CmdStage.done else s.tasks j } := by
  simp only [sysStep] at h
  split at h
  · rename_i hc
    exact ⟨hc.1, hc.2, by injection h with h2; rw [h2]⟩
  · exact Option.noConfusion h

lemma sysStep_push_eq {s s1 : SysState}
    (h : sysStep s CmdEvent.pushMsg = some s1) :
    s.loop = LoopPhase.free ∧ s1 = s := by
  simp only [sysStep] at h
  split at h
  · rename_i hc
    exact ⟨hc, by injection h with h2; rw [h2]⟩
  · exact Option.noConfusion h

/-- While no `consume a` occurs, a token `a` sitting in `cmdDoneCh` stays
there: only the read loop's `<-sc.cmdDoneCh` removes it, and a full
channel blocks every further enqueue. -/
lemma queue_preserved {a : Nat} :
    ∀ (tr : List CmdEvent) (s s' : SysState), sysRun s tr = some s' →
      s.queue = some a → CmdEvent.consume a ∉ tr → s'.queue = some a := by
  intro tr
  induction tr with
  | nil =>
    intro s s' h hq _
    injection h with h2
    rw [← h2]; exact hq
  | cons e t ih =>
    intro s s' h hq hmem
    rw [sysRun_cons] at h
    obtain ⟨s1, hstep, hrun⟩ : ∃ s1, sysStep s e = some s1 ∧ sysRun s1 t = some s' := by
      cases hs : sysStep s e with
      | none => rw [hs] at h; exact Option.noConfusion h
      | some v => rw [hs] at h; exact ⟨v, rfl, h⟩
    have hmem_t : CmdEvent.consume a ∉ t := fun hm => hmem (List.mem_cons_of_mem _ hm)
    have hq1 : s1.queue = some a := by
      cases e with
      | enqueue i =>
        have := (sysStep_enqueue_eq hstep).1
        rw [hq] at this
        exact Option.noConfusion this
      | write i r =>
        rw [(sysStep_write_eq hstep).2]
        exact hq
      | consume i =>
        have hi : s.queue = some i := (sysStep_consume_eq hstep).1
        rw [hq] at hi
        injection hi with hi2
        exact absurd (by rw [← hi2]; exact List.mem_cons_self _ _) hmem
      | signal i =>
        rw [(sysStep_signal_eq hstep).2.2]
        exact hq
      | pushMsg =>
        rw [(sysStep_push_eq hstep).2]
        exact hq
    exact ih s1 s' hrun hq1 hmem_t

/-- Between two enqueues, the first token must have been consumed: the
second `sc.cmdDoneCh <- doneCh` needs channel capacity, which only the
read loop's `<-sc.cmdDoneCh` can create. -/
lemma consume_between (t1 u rest : List CmdEvent) (a b : Nat)
    (h : ValidTrace (t1 ++ CmdEvent.enqueue a :: (u ++ CmdEvent.enqueue b :: rest))) :
    CmdEvent.consume a ∈ u := by
  by_contra hna
  unfold ValidTrace at h
  rw [sysRun_append] at h
  obtain ⟨s0, _, h1⟩ := isSome_bind h
  rw [sysRun_cons] at h1
  obtain ⟨s1, hs1, h2⟩ := isSome_bind h1
  rw [sysRun_append] at h2
  obtain ⟨s2, hs2, h3⟩ := isSome_bind h2
  rw [sysRun_cons] at h3
  obtain ⟨s3, hs3, _⟩ := isSome_bind h3
  have hq1 : s1.queue = some a := by
    rw [(sysStep_enqueue_eq hs1).2.2]
  have hq2 : s2.queue = some a := queue_preserved u s1 s2 hs2 hq1 hna
  have hq3 : s2.queue = none := (sysStep_enqueue_eq hs3).1
  rw [hq2] at hq3
  exact Option.noConfusion hq3

/-- C4: commands are serialized by the capacity-1 `cmdDoneCh`.  In every
valid trace in which command `a` enqueues its token, command `b` enqueues
later, and `b` then writes to the connection, the read loop consumed `a`'s
acknowledgment token strictly between `a`'s enqueue and `b`'s enqueue —
so `b`'s write to the connection never occurs before the previous
command's acknowledgment was consumed by the read loop. -/
theorem claim4_write_after_prev_consume (t1 t2 t3 : List CmdEvent) (a b : Nat)
    (r : Option Nat)
    (hval : ValidTrace (t1 ++ CmdEvent.enqueue a :: (t2 ++ CmdEvent.write b r :: t3)))
    (hb : CmdEvent.enqueue b ∈ t2) :
    CmdEvent.consume a ∈ t2 := by
  obtain ⟨u, v, huv⟩ := List.append_of_mem hb
  subst huv
  have hval2 : ValidTrace
      (t1 ++ CmdEvent.enqueue a ::
        (u ++ CmdEvent.enqueue b :: (v ++ CmdEvent.write b r :: t3))) := by
    unfold ValidTrace at hval ⊢
    rw [show (u ++ CmdEvent.enqueue b :: v) ++ CmdEvent.write b r :: t3 =
          u ++ CmdEvent.enqueue b :: (v ++ CmdEvent.write b r :: t3) by
        simp [List.append_assoc]] at hval
    exact hval
  exact List.mem_append_left _ (consume_between t1 u _ a b hval2)

/-- C4 witness: the trace `enqueue 0, write 0, consume 0, enqueue 1,
write 1` is valid and the second command's write is preceded by the
consumption of the first command's acknowledgment. -/
theorem claim4_witness :
    CmdEvent.consume 0 ∈
      ([CmdEvent.write 0 none, CmdEvent.consume 0, CmdEvent.enqueue 1] : List CmdEvent) :=
  claim4_write_after_prev_consume []
    [CmdEvent.write 0 none, CmdEvent.consume 0, CmdEvent.enqueue 1] [] 0 1 none
    (by decide) (by decide)

/-- A task reaches `done` only through the read loop signaling its token. -/
lemma done_needs_signal {i : Nat} :
    ∀ (tr : List CmdEvent) (s s' : SysState), sysRun s tr = some s' →
      s.tasks i ≠ CmdStage.done → s'.tasks i = CmdStage.done →
      CmdEvent.signal i ∈ tr := by
  intro tr
  induction tr with
  | nil =>
    intro s s' h hne hdone
    injection h with h2
    rw [← h2] at hdone
    exact absurd hdone hne
  | cons e t ih =>
    intro s s' h hne hdone
    rw [sysRun_cons] at h
    obtain ⟨s1, hstep, hrun⟩ : ∃ s1, sysStep s e = some s1 ∧ sysRun s1 t = some s' := by
      cases hs : sysStep s e with
      | none => rw [hs] at h; exact Option.noConfusion h
      | some v => rw [hs] at h; exact ⟨v, rfl, h⟩
    cases e with
    | enqueue j =>
      have h1 : s1.tasks i ≠ CmdStage.done := by
        rw [(sysStep_enqueue_eq hstep).2.2]
        by_cases hj : i = j <;> simp [hj, hne]
      exact List.mem_cons_of_mem _ (ih s1 s' hrun h1 hdone)
    | write j r =>
      have h1 : s1.tasks i ≠ CmdStage.done := by
        rw [(sysStep_write_eq hstep).2]
        by_cases hj : i = j <;> simp [hj, hne]
      exact List.mem_cons_of_mem _ (ih s1 s' hrun h1 hdone)
    | consume j =>
      have h1 : s1.tasks i ≠ CmdStage.done := by
        rw [(sysStep_consume_eq hstep).2.2]
        exact hne
      exact List.mem_cons_of_mem _ (ih s1 s' hrun h1 hdone)
    | signal j =>
      by_cases hj : j = i
      · rw [hj]
        exact List.mem_cons_self _ _
      · have h1 : s1.tasks i ≠ CmdStage.done := by
          rw [(sysStep_signal_eq hstep).2.2]
          simp only
          rw [if_neg (fun hc => hj hc.symm)]
          exact hne
        exact List.mem_cons_of_mem _ (ih s1 s' hrun h1 hdone)
    | pushMsg =>
      have h1 : s1.tasks i ≠ CmdStage.done := by
        rw [(sysStep_push_eq hstep).2]
        exact hne
      exact List.mem_cons_of_mem _ (ih s1 s' hrun h1 hdone)

/-- C9: the encode result is discarded — the protocol transition of a
command's write is identical whether `sc.c.Encode` failed or succeeded
(no state component records it, so the caller is never told) — and a
command call completes (`done`, i.e. `<-doneCh` returns) only after the
read loop has signaled its completion token. -/
theorem claim9_encode_error_discarded (s : SysState) (i e : Nat)
    (tr : List CmdEvent) (s' : SysState)
    (hrun : sysRun sysInit tr = some s') (hdone : s'.tasks i = CmdStage.done) :
    sysStep s (CmdEvent.write i (some e)) = sysStep s (CmdEvent.write i none) ∧
    CmdEvent.signal i ∈ tr := by
  constructor
  · rfl
  · exact done_needs_signal tr sysInit s' hrun (by simp [sysInit]) hdone

/-- C9 witness: a concrete run in which command 0's write fails with
encode error `7`; the call still completes, and the failed write causes
the same transition as a successful one. -/
theorem claim9_witness :
    sysStep sysInit (CmdEvent.write 0 (some 7)) = sysStep sysInit (CmdEvent.write 0 none) ∧
    CmdEvent.signal 0 ∈
      ([CmdEvent.enqueue 0, CmdEvent.write 0 (some 7), CmdEvent.consume 0,
        CmdEvent.signal 0] : List CmdEvent) :=
  claim9_encode_error_discarded sysInit 0 7
    [CmdEvent.enqueue 0, CmdEvent.write 0 (some 7), CmdEvent.consume 0, CmdEvent.signal 0]
    ((sysRun sysInit [CmdEvent.enqueue 0, CmdEvent.write 0 (some 7), CmdEvent.consume 0,
        CmdEvent.signal 0]).getD sysInit)
    rfl rfl

/-- The command a `doCmd` call encodes onto the connection
(`radix.CmdNoKey(cmd, args)`).  `doCmd`, and therefore each of the five
public operations below, has no error result: the `CmdSpec` is the whole
of what the caller passes down, and nothing flows back but the completion
signal. -/
structure CmdSpec where
  cmd : String
  args : List String
deriving DecidableEq, Repr

/-- `SubConn.Subscribe`: `doCmd("SUBSCRIBE", channels...)`. -/
def SubConn.Subscribe (channels : List String) : CmdSpec :=
  { cmd := "SUBSCRIBE", args := channels }

/-- `SubConn.PSubscribe`: `doCmd("PSUBSCRIBE", patterns...)`. -/
def SubConn.PSubscribe (patterns : List String) : CmdSpec :=
  { cmd := "PSUBSCRIBE", args := patterns }

/-- `SubConn.Unsubscribe`: `doCmd("UNSUBSCRIBE", channels...)`. -/
def SubConn.Unsubscribe (channels : List String) : CmdSpec :=
  { cmd := "UNSUBSCRIBE", args := channels }

/-- `SubConn.PUnsubscribe`: `doCmd("PUNSUBSCRIBE", patterns...)`. -/
def SubConn.PUnsubscribe (patterns : List String) : CmdSpec :=
  { cmd := "PUNSUBSCRIBE", args := patterns }

/-- `SubConn.Ping`: `doCmd("PING")`. -/
def SubConn.Ping : CmdSpec :=
  { cmd := "PING", args := [] }

/-- The frame `["subscribe", "chan1", "1"]`: a subscription
acknowledgment, not a push. -/
def ackFrame : List (List Nat) :=
  [[115, 117, 98, 115, 99, 114, 105, 98, 101], [99, 104, 97, 110, 49], [49]]

/-- C10: when the read loop decodes a non-push frame (one on which
`Message.Unmarshal` fails with an `UnmarshalErr`, so `mm.ok` is false)
while `cmdDoneCh` is empty, the iteration blocks at `<-sc.cmdDoneCh`
with the state untouched: the acknowledgment is not dropped, no error is
recorded, nothing is emitted and the loop does not terminate.  In the
protocol model the loop's `consume` is disabled whenever the channel is
empty, and becomes enabled exactly when a command call enqueues its
token. -/
theorem claim10_unsolicited_ack_blocks (s : SpinState) (bb : List (List Nat))
    (emsg : String) (hc : s.closeSignal = false) (hp : s.pending = none)
    (herr : Message.Unmarshal Message.zero bb = UnmarshalResult.unmarshalErr emsg) :
    readSpinStep s (DecodeResult.frame bb) = StepResult.blockedOnCmdDone s ∧
    (∀ t : SysState, t.queue = none → ∀ i, sysStep t (CmdEvent.consume i) = none) ∧
    (∀ t : SysState, t.loop = LoopPhase.free → ∀ i,
      sysStep { t with queue := some i } (CmdEvent.consume i) =
        some { t with queue := none, loop := LoopPhase.signaling i }) := by
  refine ⟨?_, ?_, ?_⟩
  · simp [readSpinStep, maybeMessage.Unmarshal, herr, hc, hp]
  · intro t hq i
    simp [sysStep, hq]
  · intro t hl i
    simp [sysStep, hl]

/-- C10 witness: the subscription acknowledgment `["subscribe", "chan1",
"1"]` arriving at a fresh `SubConn` with no pending command blocks the
read loop. -/
theorem claim10_witness :
    readSpinStep spinInit (DecodeResult.frame ackFrame) = StepResult.blockedOnCmdDone spinInit :=
  (claim10_unsolicited_ack_blocks spinInit ackFrame "not MESSAGE or PMESSAGE"
    rfl rfl (by decide)).1

/-! ## Failover client (`sentinel`: `sentinelClient.ensureMaster`,
`sentinelClient.ensureSentinelAddrs`)

Monitor replies are Go `map[string]string` values, modelled as association
lists with the Go lookup semantics: a missing key yields `""`.  The
connection pool handle is opaque and modelled by a `Nat` id; the dial
function `sc.pfn` is modelled by the result it would produce for the one
address `ensureMaster` may dial. -/

/-- Go map read `m[k]` on a `map[string]string`: the empty string when
the key is absent. -/
def lookupD (m : List (String × String)) (k : String) : String :=
  match m.find? (fun kv => kv.fst == k) with
  | some kv => kv.snd
  | none => ""

/-- The fields of `sentinelClient` the two resolver methods touch:
the active pool `p` (`none` for the Go nil pool of a fresh client), its
address `pAddr`, the cached sentinel addresses `addrs`, and the service
`name`. -/
structure SentinelState where
  p : Option Nat
  pAddr : String
  addrs : List String
  name : String
deriving DecidableEq, Repr

/-- Return value of `ensureMaster`. -/
inductive EMResult where
  | ok
  | cmdErr (e : String)
  | malformedErr
  | dialErr (e : String)
deriving DecidableEq, Repr

/-- Instrumented outcome of one `ensureMaster` call: the client state
after the call, the returned error, the number of `sc.pfn` dials
performed, and the pool handles closed. -/
structure EMOutcome where
  state : SentinelState
  result : EMResult
  dials : Nat
  closedPools : List Nat
deriving DecidableEq, Repr

/-- `sentinelClient.ensureMaster`: snapshot `sc.pAddr` under the lock, run
`SENTINEL MASTER <name>` on the monitor connection (`cmdRes` is its
decoded reply), fail on a missing `ip` or `port` field, no-op when the
reported address equals the snapshot, otherwise dial a new pool (`dial`
is what `sc.pfn("tcp", newAddr)` returns) and only on success close the
old pool and install the new pool and address. -/
def ensureMaster (sc : SentinelState) (cmdRes : Except String (List (String × String)))
    (dial : Except String Nat) : EMOutcome :=
  let lastAddr := sc.pAddr
  match cmdRes with
  | Except.error e => { state := sc, result := EMResult.cmdErr e, dials := 0, closedPools := [] }
  | Except.ok m =>
    if lookupD m "ip" = "" ∨ lookupD m "port" = "" then
      { state := sc, result := EMResult.malformedErr, dials := 0, closedPools := [] }
    else
      let newAddr := lookupD m "ip" ++ ":" ++ lookupD m "port"
      if newAddr = lastAddr then
        { state := sc, result := EMResult.ok, dials := 0, closedPools := [] }
      else
        match dial with
        | Except.error e =>
          { state := sc, result := EMResult.dialErr e, dials := 1, closedPools := [] }
        | Except.ok newPool =>
          { state := { sc with p := some newPool, pAddr := newAddr },
            result := EMResult.ok, dials := 1,
            closedPools := match sc.p with | some old => [old] | none => [] }

/-- `sentinelClient.ensureSentinelAddrs`: start from the monitor
connection's own remote address, run `SENTINEL SENTINELS <name>`
(`cmdRes` is its decoded reply, a sequence of maps), and on success
replace `sc.addrs` wholesale with the remote address followed by each
reported peer's `ip:port`; on failure return the error with no state
change. -/
def ensureSentinelAddrs (sc : SentinelState) (remoteAddr : String)
    (cmdRes : Except String (List (List (String × String)))) :
    SentinelState × Option String :=
  match cmdRes with
  | Except.error e => (sc, some e)
  | Except.ok mm =>
    ({ sc with addrs := remoteAddr :: mm.map (fun m => lookupD m "ip" ++ ":" ++ lookupD m "port") },
      none)

/-- C6: `ensureMaster` is atomic on failure.  If the monitor's reply lacks
the `ip` or `port` field it returns the malformed-response error; if the
reply is well-formed, names a new address and the dial fails, it returns
that dial error.  In both cases the pool, the address, the cached
sentinel address list — the whole client state — are unchanged, no dial
result is installed and no pool is closed, so the old pool remains
active. -/
theorem claim6_ensureMaster_failure_atomic (sc : SentinelState)
    (m : List (String × String)) (dial : Except String Nat) (e : String) :
    ((lookupD m "ip" = "" ∨ lookupD m "port" = "") →
      ensureMaster sc (Except.ok m) dial =
        { state := sc, result := EMResult.malformedErr, dials := 0, closedPools := [] }) ∧
    (¬ (lookupD m "ip" = "" ∨ lookupD m "port" = "") →
      lookupD m "ip" ++ ":" ++ lookupD m "port" ≠ sc.pAddr →
      ensureMaster sc (Except.ok m) (Except.error e) =
        { state := sc, result := EMResult.dialErr e, dials := 1, closedPools := [] }) := by
  constructor
  · intro hmal
    simp [ensureMaster, hmal]
  · intro hok hne
    simp [ensureMaster, hok, hne]

/-- C6 witness: a reply missing `port` leaves a populated client
untouched and reports the malformed-response error. -/
theorem claim6_witness :
    ensureMaster { p := some 1, pAddr := "1.2.3.4:5", addrs := ["s1"], name := "bucket0" }
        (Except.ok [("ip", "9.9.9.9")]) (Except.ok 2) =
      { state := { p := some 1, pAddr := "1.2.3.4:5", addrs := ["s1"], name := "bucket0" },
        result := EMResult.malformedErr, dials := 0, closedPools := [] } :=
  (claim6_ensureMaster_failure_atomic
      { p := some 1, pAddr := "1.2.3.4:5", addrs := ["s1"], name := "bucket0" }
      [("ip", "9.9.9.9")] (Except.ok 2) "boom").1 (by decide)

/-- C7: when the monitor reports the currently active address,
`ensureMaster` is a no-op — zero dials, nothing closed, state identical —
and a second consecutive call with the same well-formed reply performs
zero dials and changes nothing, whatever the first call did: after a
successful first call the active address equals the reported one. -/
theorem claim7_ensureMaster_noop (sc : SentinelState) (m : List (String × String))
    (dial dial2 : Except String Nat)
    (hip : ¬ lookupD m "ip" = "") (hport : ¬ lookupD m "port" = "") :
    (lookupD m "ip" ++ ":" ++ lookupD m "port" = sc.pAddr →
      ensureMaster sc (Except.ok m) dial =
        { state := sc, result := EMResult.ok, dials := 0, closedPools := [] }) ∧
    ((ensureMaster sc (Except.ok m) dial).result = EMResult.ok →
      ensureMaster (ensureMaster sc (Except.ok m) dial).state (Except.ok m) dial2 =
        { state := (ensureMaster sc (Except.ok m) dial).state, result := EMResult.ok,
          dials := 0, closedPools := [] }) := by
  have hfields : ¬ (lookupD m "ip" = "" ∨ lookupD m "port" = "") := by
    intro hc
    rcases hc with hc | hc
    · exact hip hc
    · exact hport hc
  constructor
  · intro heq
    simp [ensureMaster, hfields, heq]
  · intro hres
    by_cases heq : lookupD m "ip" ++ ":" ++ lookupD m "port" = sc.pAddr
    · simp [ensureMaster, hfields, heq]
    · cases dial with
      | error e =>
        exfalso
        simp [ensureMaster, hfields, heq] at hres
      | ok newPool =>
        simp [ensureMaster, hfields, heq]

/-- C7 witness: a first call against an uninitialized client dials
`9.9.9.9:7` once; the second call with the unchanged reply performs zero
dials and leaves everything in place. -/
theorem claim7_witness :
    ensureMaster
        (ensureMaster { p := none, pAddr := "", addrs := [], name := "bucket0" }
          (Except.ok [("ip", "9.9.9.9"), ("port", "7")]) (Except.ok 2)).state
        (Except.ok [("ip", "9.9.9.9"), ("port", "7")]) (Except.ok 3) =
      { state := (ensureMaster { p := none, pAddr := "", addrs := [], name := "bucket0" }
          (Except.ok [("ip", "9.9.9.9"), ("port", "7")]) (Except.ok 2)).state,
        result := EMResult.ok, dials := 0, closedPools := [] } :=
  (claim7_ensureMaster_noop { p := none, pAddr := "", addrs := [], name := "bucket0" }
      [("ip", "9.9.9.9"), ("port", "7")] (Except.ok 2) (Except.ok 3)
      (by decide) (by decide)).2 (by decide)

/-- C8: a successful `ensureSentinelAddrs` replaces the cached address
list wholesale with the monitor connection's own remote address followed
by each reported peer's `ip:port` in reply order, touching nothing else;
a failed query returns the error and leaves the whole state unchanged. -/
theorem claim8_ensureSentinelAddrs (sc : SentinelState) (remoteAddr : String)
    (mm : List (List (String × String))) (e : String) :
    ensureSentinelAddrs sc remoteAddr (Except.ok mm) =
      ({ sc with addrs :=
          remoteAddr :: mm.map (fun m => lookupD m "ip" ++ ":" ++ lookupD m "port") }, none) ∧
    ensureSentinelAddrs sc remoteAddr (Except.error e) = (sc, some e) := by
  exact ⟨rfl, rfl⟩

end RadixV2
